import Mathlib

/-!
Shallow embedding of the tabular ingestion and view-state pipeline of
`src/json_file_read_streamlit.py` (a Streamlit data-explorer dashboard),
together with theorems settling the specification claims about it.

Modelling conventions:
* JSON numeric literals are modelled as integers; float formatting is a
  pandas-level detail none of the claims depend on.
* A DataFrame is modelled as a `Table`: a list of column names plus a list of
  rows, each row being a list of cells aligned with the columns.
* A missing value (pandas `NaN` / JSON `null` stored in a frame) is the cell
  `none`; present values are `some j`.
* Python `str()` of values is modelled by `jsonToPyStr` / `jsonToPyRepr`.
-/

namespace DataWave

/-- JSON values as produced by `json.load`. -/
inductive Json where
  | null
  | bool (b : Bool)
  | num (n : Int)
  | str (s : String)
  | arr (elems : List Json)
  | obj (fields : List (String × Json))

mutual

/-- Python `repr` of a JSON-derived value, as it appears inside containers
when pandas coerces a cell to text. -/
def jsonToPyRepr : Json → String
  | .null => "None"
  | .bool true => "True"
  | .bool false => "False"
  | .num n => toString n
  | .str s => "\x27" ++ s ++ "\x27"
  | .arr xs => "[" ++ reprJoinList xs ++ "]"
  | .obj kvs => "\x7b" ++ reprJoinFields kvs ++ "\x7d"

/-- Comma-joined Python reprs of the elements of a JSON array. -/
def reprJoinList : List Json → String
  | [] => ""
  | [x] => jsonToPyRepr x
  | x :: y :: xs => jsonToPyRepr x ++ ", " ++ reprJoinList (y :: xs)

/-- Comma-joined `key: value` Python reprs of the fields of a JSON object. -/
def reprJoinFields : List (String × Json) → String
  | [] => ""
  | [(k, v)] => "\x27" ++ k ++ "\x27: " ++ jsonToPyRepr v
  | (k, v) :: p :: kvs =>
      "\x27" ++ k ++ "\x27: " ++ jsonToPyRepr v ++ ", " ++ reprJoinFields (p :: kvs)

end

/-- Python `str()` of a JSON-derived value: top-level strings print bare,
everything else prints as its repr. -/
def jsonToPyStr : Json → String
  | .str s => s
  | .null => "None"
  | .bool true => "True"
  | .bool false => "False"
  | .num n => toString n
  | .arr xs => "[" ++ reprJoinList xs ++ "]"
  | .obj kvs => "\x7b" ++ reprJoinFields kvs ++ "\x7d"

/-- A DataFrame cell: `none` models a missing value (NaN). -/
abbrev Cell := Option Json

/-- A pandas DataFrame: named columns and rows of cells aligned with them. -/
structure Table where
  cols : List String
  rows : List (List Cell)

/-- Storing a JSON value into a frame: `null` becomes a missing value. -/
def jsonToCell : Json → Cell
  | .null => none
  | j => some j

/-- Textual form of a cell under `Series.astype(str)`: pandas renders a
missing value as the string "nan". -/
def cellToStrP : Cell → String
  | none => "nan"
  | some j => jsonToPyStr j

/-- First-seen deduplication with an explicit seen-set, the order produced by
`pandas.Series.unique()`. -/
def uniqAux (seen : List String) : List String → List String
  | [] => []
  | x :: xs => if x ∈ seen then uniqAux seen xs else x :: uniqAux (x :: seen) xs

/-- Model of `pandas.Series.unique().tolist()`: distinct values in first-seen order. -/
def pandasUnique (l : List String) : List String :=
  uniqAux [] l

/-- Modelled from the spec's wording only: "the set of distinct textual values
... in first-seen order" — append each value the first time it is observed.
Used as the specification side of the refinement claim about filter options. -/
def specFirstSeen (l : List String) : List String :=
  l.foldl (fun acc x => if x ∈ acc then acc else acc ++ [x]) []

/-- Keys of a JSON object (empty for any other value). -/
def objKeys : Json → List String
  | .obj kvs => kvs.map Prod.fst
  | _ => []

/-- Cell stored for key `k` of a record: the looked-up value, or a missing
value when the record has no such key (pandas fills NaN). -/
def objLookup (j : Json) (k : String) : Cell :=
  match j with
  | .obj kvs =>
    match kvs.lookup k with
    | some v => jsonToCell v
    | none => none
  | _ => none

/-- Model of `pd.DataFrame(records)`: the union of observed keys in first-seen order
becomes the column set; each record becomes one row, missing keys giving
missing cells. -/
def dataFrameOfRecords (xs : List Json) : Table :=
  let cols := pandasUnique ((xs.map objKeys).flatten)
  { cols := cols, rows := xs.map fun j => cols.map (objLookup j) }

/-- Flattening of nested object fields with dotted names, as performed by
`pd.json_normalize` on a dictionary. -/
def flattenPairs : List (String × Json) → List (String × Json)
  | [] => []
  | (k, .obj kvs) :: rest =>
      ((flattenPairs kvs).map fun p => (k ++ "." ++ p.1, p.2)) ++ flattenPairs rest
  | (k, v) :: rest => (k, v) :: flattenPairs rest

/-- Model of `pd.json_normalize(data)` on a dictionary: one row whose columns are the
dot-flattened field names. (In the source this call sits under a
`try/except`; on a dictionary it returns normally, so the failure branch is
dead and the model is total.) -/
def json_normalize (kvs : List (String × Json)) : Table :=
  let flat := flattenPairs kvs
  { cols := flat.map Prod.fst, rows := [flat.map fun p => jsonToCell p.2] }

/-- The loop test of `load_nested_json`: `isinstance(value, list) and
len(value) > 0 and isinstance(value[0], dict)`. -/
def isRecordList : Json → Bool
  | .arr (x :: _) =>
    match x with
    | .obj _ => true
    | _ => false
  | _ => false

/-- Elements of a JSON array (empty for any other value). -/
def arrElems : Json → List Json
  | .arr xs => xs
  | _ => []

/-- Error message returned on `json.JSONDecodeError` (the spec's ParseError). -/
def parse_error_msg : String :=
  "Error: Could not decode JSON. File may be malformed or empty."

/-- Error message returned for a scalar root (the spec's StructureError). -/
def structure_error_msg : String :=
  "Error: JSON root element is not a list or dictionary."

/-- Model of `load_nested_json`: the input is `none` when `json.load` raised
`JSONDecodeError` (malformed input), otherwise the parsed root value. The
result mirrors the Python pair `(df, error_message)`. -/
def load_nested_json : Option Json → Option Table × Option String
  | none => (none, some parse_error_msg)
  | some (.arr xs) => (some (dataFrameOfRecords xs), none)
  | some (.obj kvs) =>
    match kvs.find? fun kv => isRecordList kv.2 with
    | some kv => (some (dataFrameOfRecords (arrElems kv.2)), none)
    | none => (some (json_normalize kvs), none)
  | some _ => (none, some structure_error_msg)

/-- Root values that are neither an array nor an object (bare scalars). -/
def isScalarRoot : Json → Bool
  | .null => true
  | .bool _ => true
  | .num _ => true
  | .str _ => true
  | .arr _ => false
  | .obj _ => false

/-- Cell of a row at a named column (missing when the column is absent). -/
def getCell (cols : List String) (row : List Cell) (c : String) : Cell :=
  match (cols.zip row).lookup c with
  | some cell => cell
  | none => none

/-- The series `df[c]`: the column's cells in row order. -/
def getColumn (t : Table) (c : String) : List Cell :=
  t.rows.map fun r => getCell t.cols r c

/-- Whether pandas infers the column dtype `object` (the "string-typed" test
`df[col].dtype == 'object'`): modelled as holding exactly when some stored
value is a string, list, or dict rather than a homogeneous numeric/bool
series. -/
def isObjectDtype (cells : List Cell) : Bool :=
  cells.any fun cell =>
    match cell with
    | some (.str _) => true
    | some (.arr _) => true
    | some (.obj _) => true
    | _ => false

/-- The per-value test `isinstance(val, str) and re.match(r'https?://', val)`:
the regex anchors at the start of the string, so it holds exactly when the
string starts with "http://" or "https://". -/
def isUrlString : Json → Bool
  | .str s => s.startsWith ("http://") || s.startsWith ("https://")
  | _ => false

/-- Model of `df[col].dropna().head(10)`: the first up-to-ten non-missing values. -/
def sampleValues (cells : List Cell) : List Json :=
  (cells.filterMap id).take 10

/-- Model of `detect_url_columns`: the columns flagged for link rendering (the model
keeps the flagged names; the Python dict maps them to widget configs). -/
def detect_url_columns (t : Table) : List String :=
  t.cols.filter fun c =>
    isObjectDtype (getColumn t c) && (sampleValues (getColumn t c)).any isUrlString

/-- The fixed filterable columns of the dashboard. -/
def filter_cols : List String :=
  ["topic_name", "publisher", "publication_type"]

/-- Model of `active_filters` as built by the dropdown loop: a selection maps a column
name to the chosen value (`none` models choosing "All"); only filter columns
present in the table contribute an active filter. -/
def active_filters (t : Table) (sel : String → Option String) :
    List (String × String) :=
  filter_cols.filterMap fun c =>
    if c ∈ t.cols then (sel c).map fun v => (c, v) else none

/-- One filtering step `df[df[col].astype(str) == value]`. -/
def filterEq (t : Table) (c v : String) : Table :=
  { cols := t.cols,
    rows := t.rows.filter fun r => cellToStrP (getCell t.cols r c) == v }

/-- Model of `df_filtered`: the active filters applied in sequence to the original
table. -/
def df_filtered (t : Table) (sel : String → Option String) : Table :=
  (active_filters t sel).foldl (fun acc cv => filterEq acc cv.1 cv.2) t

/-- Modelled from the spec's wording only: a row passes when, for every
constrained filter column that is present in the table, its cell coerced to
text equals the selected text exactly; absent columns impose no constraint. -/
def rowMatches (t : Table) (sel : String → Option String) (r : List Cell) :
    Bool :=
  filter_cols.all fun c =>
    if c ∈ t.cols then
      match sel c with
      | some v => cellToStrP (getCell t.cols r c) == v
      | none => true
    else true

/-- Dropdown options for a filter column:
`["All"] + df[col].astype(str).dropna().unique().tolist()`. After
`astype(str)` every cell is a string (missing values became "nan"), so the
`dropna()` drops nothing and is omitted from the model. -/
def filter_options (t : Table) (c : String) : List String :=
  "All" :: pandasUnique ((getColumn t c).map cellToStrP)

/-- Model of `total_pages = (total_rows - 1) // rows_per_page + 1 if total_rows > 0
else 1`. -/
def total_pages (total_rows rows_per_page : Nat) : Nat :=
  if 0 < total_rows then (total_rows - 1) / rows_per_page + 1 else 1

/-- The clamp `if page >= total_pages: page = max(0, total_pages - 1)`. -/
def clampPage (page tp : Nat) : Nat :=
  if tp ≤ page then max 0 (tp - 1) else page

/-- The Next button: increment only when `page < total_pages - 1`. -/
def nextPage (page tp : Nat) : Nat :=
  if page < tp - 1 then page + 1 else page

/-- The Previous button: decrement only when `page > 0`. -/
def prevPage (page : Nat) : Nat :=
  if 0 < page then page - 1 else page

/-- Model of `paged_df = display_df.iloc[page*size : page*size + size]`. -/
def pageSlice (t : Table) (page size : Nat) : Table :=
  { cols := t.cols, rows := (t.rows.drop (page * size)).take size }

/-- Model of `df.empty`: a frame with zero rows or zero columns is empty. -/
def tableIsEmpty (t : Table) : Bool :=
  t.rows.isEmpty || t.cols.isEmpty

/-- The pagination stage of the render cycle: when `display_df.empty` the app
warns "No data matches the selected filters." and calls `st.stop()` (modelled
as `none`); otherwise it computes the page count, clamps the stored page
index, and returns the page count, the clamped index, and the slice. -/
def runPagination (display_df : Table) (page size : Nat) :
    Option (Nat × Nat × Table) :=
  if tableIsEmpty display_df then none
  else
    let tp := total_pages display_df.rows.length size
    let p := clampPage page tp
    some (tp, p, pageSlice display_df p size)

/-- A small concrete table used to instantiate hypothesis-bearing theorems. -/
def exTable : Table :=
  { cols := ["publisher", "title"],
    rows := [[some (.str ("Acme")), some (.str ("A"))],
             [some (.str ("Zenith")), some (.str ("B"))],
             [some (.str ("Acme")), some (.str ("C"))]] }

/-- A selection constraining `publisher` to "Acme". -/
def exSelAcme : String → Option String :=
  fun c => if c = "publisher" then some ("Acme") else none

/-- A selection constraining `publisher` to a value no row has. -/
def exSelNoMatch : String → Option String :=
  fun c => if c = "publisher" then some ("Nonexistent") else none

theorem find?_append_cons {α : Type} (p : α → Bool) (pre post : List α) (x : α)
    (hpre : ∀ y ∈ pre, p y = false) (hx : p x = true) :
    (pre ++ x :: post).find? p = some x := by
  induction pre with
  | nil => simp [List.find?_cons, hx]
  | cons a pre ih =>
    have ha := hpre a (List.mem_cons_self a pre)
    simp [List.find?_cons, ha,
      ih fun y hy => hpre y (List.mem_cons_of_mem a hy)]

/-! C1: root-object extraction searches direct pairs in order -/

/-- C1: for a JSON root object, extraction uses as the row list the value of
the first key (in iteration order) whose value is a non-empty array whose
first element is an object; the generic flatten fallback runs exactly when no
direct value qualifies. -/
theorem json_object_extraction_order :
    (∀ (pre post : List (String × Json)) (k : String) (v : Json),
        isRecordList v = true →
        (∀ kv ∈ pre, isRecordList kv.2 = false) →
        load_nested_json (some (.obj (pre ++ (k, v) :: post)))
          = (some (dataFrameOfRecords (arrElems v)), none))
    ∧ (∀ kvs : List (String × Json),
        (∀ kv ∈ kvs, isRecordList kv.2 = false) →
        load_nested_json (some (.obj kvs)) = (some (json_normalize kvs), none)) := by
  constructor
  · intro pre post k v hv hpre
    have hfind : ((pre ++ (k, v) :: post).find? fun kv => isRecordList kv.2)
        = some (k, v) :=
      find?_append_cons _ pre post (k, v) (fun y hy => hpre y hy) hv
    simp [load_nested_json, hfind]
  · intro kvs hkvs
    have hfind : (kvs.find? fun kv => isRecordList kv.2) = none :=
      List.find?_eq_none.2 fun kv hkv => by simp [hkvs kv hkv]
    simp [load_nested_json, hfind]

theorem json_object_extraction_order_witness :
    isRecordList (.arr [.obj [("a", .num 1)], .obj [("a", .num 2)]]) = true
    ∧ (∀ kv ∈ ([("meta", Json.str ("v1"))] : List (String × Json)),
        isRecordList kv.2 = false)
    ∧ load_nested_json (some (.obj
        ([("meta", Json.str ("v1"))]
          ++ ("items", Json.arr [.obj [("a", .num 1)], .obj [("a", .num 2)]])
            :: [("extra", Json.arr [.obj [("b", .num 3)]])])))
        = (some (dataFrameOfRecords
            (arrElems (Json.arr [.obj [("a", .num 1)], .obj [("a", .num 2)]]))), none) := by
  refine ⟨rfl, ?_, ?_⟩
  · intro kv hkv
    rw [List.mem_singleton.1 hkv]
    rfl
  · exact json_object_extraction_order.1 _ _ ("items") _ rfl
      (fun kv hkv => by rw [List.mem_singleton.1 hkv]; rfl)

/-! C9: scalar roots and malformed input give distinct errors -/

/-- C9: a malformed input yields the decode error, a bare-scalar root yields
the structure error, the two messages are distinct, and neither case produces
a table. -/
theorem scalar_and_parse_errors :
    load_nested_json none = (none, some parse_error_msg)
    ∧ (∀ j, isScalarRoot j = true →
        load_nested_json (some j) = (none, some structure_error_msg))
    ∧ parse_error_msg ≠ structure_error_msg := by
  refine ⟨rfl, ?_, by decide⟩
  intro j hj
  cases j <;> first | rfl | simp [isScalarRoot] at hj

theorem scalar_and_parse_errors_witness :
    isScalarRoot (.num 7) = true
    ∧ load_nested_json (some (.num 7)) = (none, some structure_error_msg) :=
  ⟨rfl, scalar_and_parse_errors.2.1 (.num 7) rfl⟩

/-! C3: page-index invariant and navigation -/

/-- C3: the page count is at least one; the clamp brings an index at or past
the page count down to the last page and never raises an in-range index; Next
increments only strictly before the last page and Previous decrements only
strictly after the first, both otherwise leaving the index unchanged; every
transition preserves the invariant `page < total_pages`. -/
theorem pager_state_invariant (n size p tp : Nat) (htp : tp = total_pages n size) :
    1 ≤ tp
    ∧ clampPage p tp < tp
    ∧ clampPage p tp ≤ p
    ∧ (tp ≤ p → clampPage p tp = tp - 1)
    ∧ (p < tp → clampPage p tp = p)
    ∧ (∀ q, q < tp →
        (q < tp - 1 → nextPage q tp = q + 1)
        ∧ (¬ q < tp - 1 → nextPage q tp = q)
        ∧ nextPage q tp < tp)
    ∧ (∀ q, (0 < q → prevPage q = q - 1) ∧ (q = 0 → prevPage q = q)
        ∧ (q < tp → prevPage q < tp)) := by
  have h1 : 1 ≤ tp := by
    subst htp; unfold total_pages; split
    · exact Nat.succ_le_succ (Nat.zero_le _)
    · exact Nat.le_refl 1
  refine ⟨h1, ?_, ?_, ?_, ?_, ?_, ?_⟩
  · simp only [clampPage, Nat.zero_max]; split <;> omega
  · simp only [clampPage, Nat.zero_max]; split <;> omega
  · intro hp; simp only [clampPage, Nat.zero_max]; split <;> omega
  · intro hp; simp only [clampPage, Nat.zero_max]; split <;> omega
  · intro q hq
    refine ⟨?_, ?_, ?_⟩ <;> simp only [nextPage] <;> split <;> omega
  · intro q
    refine ⟨?_, ?_, ?_⟩ <;> simp only [prevPage] <;> split <;> omega

theorem pager_state_invariant_witness :
    total_pages 25 10 ≤ 5
    ∧ clampPage 5 (total_pages 25 10) = total_pages 25 10 - 1 :=
  ⟨by decide, (pager_state_invariant 25 10 5 (total_pages 25 10) rfl).2.2.2.1 (by decide)⟩

/-! C4: the page slices partition the table -/

theorem pages_cover {α : Type} (size : Nat) :
    ∀ (tp : Nat) (l : List α), l.length ≤ tp * size →
      ((List.range tp).map fun i => (l.drop (i * size)).take size).flatten = l := by
  intro tp
  induction tp with
  | zero =>
    intro l hl
    simp only [Nat.zero_mul, Nat.le_zero] at hl
    simp [List.eq_nil_of_length_eq_zero hl]
  | succ tp ih =>
    intro l hl
    rw [List.range_succ_eq_map]
    simp only [List.map_cons, List.map_map, List.flatten_cons, Nat.zero_mul,
      List.drop_zero]
    have hmap : ((List.range tp).map fun i =>
          (l.drop ((i + 1) * size)).take size)
        = (List.range tp).map fun i => ((l.drop size).drop (i * size)).take size := by
      apply List.map_congr_left
      intro i _
      rw [List.drop_drop]
      congr 1
      ring_nf
    have hcomp : ((fun i => (l.drop (i * size)).take size) ∘ Nat.succ)
        = fun i => (l.drop ((i + 1) * size)).take size := by
      funext i; rfl
    rw [hcomp, hmap, ih (l.drop size) ?_]
    · exact List.take_append_drop size l
    · have e : (tp + 1) * size = tp * size + size := by ring
      rw [e] at hl
      simp only [List.length_drop]
      omega

theorem length_le_total_pages_mul (n size : Nat) (h : 1 ≤ size) :
    n ≤ total_pages n size * size := by
  unfold total_pages
  split
  · have hd := Nat.div_add_mod (n - 1) size
    have hm : (n - 1) % size < size := Nat.mod_lt _ (by omega)
    have e : ((n - 1) / size + 1) * size = size * ((n - 1) / size) + size := by ring
    rw [e]; omega
  · omega

/-- C4: for any table and any page size at least 1, the slices for page
indices below the page count concatenate, in order, back to the table's rows;
each slice is the range `[i*size, i*size+size)` clipped to the row count; and
the index ranges of distinct pages are disjoint. -/
theorem pager_partition (t : Table) (size : Nat) (hsize : 1 ≤ size) :
    ((List.range (total_pages t.rows.length size)).map
        fun i => (pageSlice t i size).rows).flatten = t.rows
    ∧ (∀ i, (pageSlice t i size).rows = (t.rows.drop (i * size)).take size
        ∧ (pageSlice t i size).rows.length = min size (t.rows.length - i * size))
    ∧ ∀ i j, i < j → i * size + size ≤ j * size := by
  refine ⟨?_, ?_, ?_⟩
  · exact pages_cover size _ t.rows (length_le_total_pages_mul _ _ hsize)
  · intro i
    refine ⟨rfl, ?_⟩
    simp [pageSlice, List.length_take, List.length_drop]
  · intro i j hij
    have h2 : (i + 1) * size ≤ j * size := Nat.mul_le_mul_right size (by omega)
    calc i * size + size = (i + 1) * size := by ring
    _ ≤ j * size := h2

theorem pager_partition_witness :
    1 ≤ 2
    ∧ ((List.range (total_pages exTable.rows.length 2)).map
        fun i => (pageSlice exTable i 2).rows).flatten = exTable.rows :=
  ⟨by decide, (pager_partition exTable 2 (by decide)).1⟩

/-! C2 / C10: the filter engine -/

theorem filterEq_cols (t : Table) (c v : String) : (filterEq t c v).cols = t.cols :=
  rfl

theorem foldl_filterEq_cols (fs : List (String × String)) (t : Table) :
    (fs.foldl (fun acc cv => filterEq acc cv.1 cv.2) t).cols = t.cols := by
  induction fs generalizing t with
  | nil => rfl
  | cons cv fs ih => simpa using ih (filterEq t cv.1 cv.2)

theorem foldl_filterEq_rows (fs : List (String × String)) (t : Table) :
    (fs.foldl (fun acc cv => filterEq acc cv.1 cv.2) t).rows
      = t.rows.filter fun r =>
          fs.all fun cv => cellToStrP (getCell t.cols r cv.1) == cv.2 := by
  induction fs generalizing t with
  | nil => simp
  | cons cv fs ih =>
    rw [List.foldl_cons, ih (filterEq t cv.1 cv.2)]
    show (t.rows.filter _).filter _ = _
    rw [List.filter_filter]
    apply List.filter_congr
    intro r _
    simp [List.all_cons, Bool.and_comm, filterEq_cols]

theorem filterMap_all_aux (t : Table) (sel : String → Option String) (r : List Cell)
    (cs : List String) :
    ((cs.filterMap fun c =>
        if c ∈ t.cols then (sel c).map fun v => (c, v) else none).all
      fun cv => cellToStrP (getCell t.cols r cv.1) == cv.2)
      = cs.all fun c =>
          if c ∈ t.cols then
            match sel c with
            | some v => cellToStrP (getCell t.cols r c) == v
            | none => true
          else true := by
  induction cs with
  | nil => rfl
  | cons c cs ih =>
    rw [List.filterMap_cons]
    by_cases hc : c ∈ t.cols
    · cases hsel : sel c with
      | none => simp [hc, hsel, ih]
      | some v => simp [hc, hsel, List.all_cons, ih]
    · simp [hc, ih]

/-- C2: filtering keeps exactly the rows whose text-coerced value equals the
selected text in every constrained filter column present in the table
(columns absent from the table impose no constraint), and the empty
selection returns the table unchanged. -/
theorem filter_engine_spec (t : Table) (sel : String → Option String) :
    (df_filtered t sel).cols = t.cols
    ∧ (df_filtered t sel).rows = t.rows.filter (rowMatches t sel)
    ∧ ((∀ c ∈ filter_cols, sel c = none) → df_filtered t sel = t) := by
  refine ⟨foldl_filterEq_cols _ t, ?_, ?_⟩
  · rw [df_filtered, foldl_filterEq_rows]
    exact List.filter_congr fun r _ => filterMap_all_aux t sel r filter_cols
  · intro h
    have h1 := h ("topic_name") (by simp [filter_cols])
    have h2 := h ("publisher") (by simp [filter_cols])
    have h3 := h ("publication_type") (by simp [filter_cols])
    have hempty : active_filters t sel = [] := by
      simp [active_filters, filter_cols, h1, h2, h3]
    rw [df_filtered, hempty]
    rfl

theorem filter_engine_spec_witness :
    (∀ c ∈ filter_cols, (fun _ : String => (none : Option String)) c = none)
    ∧ df_filtered exTable (fun _ => none) = exTable :=
  ⟨fun _ _ => rfl, (filter_engine_spec exTable (fun _ => none)).2.2 fun _ _ => rfl⟩

/-- C10: every filtered row comes from the input table, in the same relative
order, with no duplication or synthesis, so the filtered row count never
exceeds the input's. -/
theorem filter_rows_from_input (t : Table) (sel : String → Option String) :
    (df_filtered t sel).rows.Sublist t.rows
    ∧ (df_filtered t sel).rows.length ≤ t.rows.length
    ∧ ∀ r ∈ (df_filtered t sel).rows, r ∈ t.rows := by
  have h : (df_filtered t sel).rows.Sublist t.rows := by
    rw [df_filtered, foldl_filterEq_rows]
    exact List.filter_sublist t.rows
  exact ⟨h, h.length_le, fun r hr => h.subset hr⟩

theorem filter_rows_from_input_witness :
    [some (Json.str ("Acme")), some (Json.str ("A"))]
        ∈ (df_filtered exTable exSelAcme).rows
    ∧ [some (Json.str ("Acme")), some (Json.str ("A"))] ∈ exTable.rows := by
  have hrows : (df_filtered exTable exSelAcme).rows
      = [[some (Json.str ("Acme")), some (Json.str ("A"))],
         [some (Json.str ("Acme")), some (Json.str ("C"))]] := rfl
  have hmem : [some (Json.str ("Acme")), some (Json.str ("A"))]
      ∈ (df_filtered exTable exSelAcme).rows := by
    rw [hrows]
    exact List.mem_cons_self _ _
  exact ⟨hmem, (filter_rows_from_input exTable exSelAcme).2.2 _ hmem⟩

/-! C5: zero-row filtered table stops rendering before pagination -/

/-- C5 counterexample: with a concrete table and a filter value no row has,
the filtered table has zero rows and the render cycle halts with a warning
before the pager runs (`st.stop()`), so the pager does not report a page
count — pagination is skipped, contrary to the claim. -/
theorem empty_filter_skips_pagination :
    (df_filtered exTable exSelNoMatch).rows = []
    ∧ runPagination (df_filtered exTable exSelNoMatch) 0 10 = none := by
  exact ⟨rfl, rfl⟩

/-- C5 amended: when the displayed table is empty the app warns and stops,
skipping pagination entirely; the page-count formula itself would report one
page for a zero-row table, and the slice formula an empty slice. -/
theorem empty_table_pagination_behavior :
    (∀ (t : Table) (p size : Nat), tableIsEmpty t = true →
        runPagination t p size = none)
    ∧ (∀ size : Nat, total_pages 0 size = 1)
    ∧ (∀ (t : Table) (p size : Nat), t.rows = [] →
        (pageSlice t p size).rows = []) := by
  refine ⟨?_, ?_, ?_⟩
  · intro t p size h
    simp [runPagination, h]
  · intro size
    rfl
  · intro t p size h
    simp [pageSlice, h]

theorem empty_table_pagination_behavior_witness :
    tableIsEmpty (Table.mk ["a"] []) = true
    ∧ runPagination (Table.mk ["a"] []) 0 10 = none :=
  ⟨rfl, empty_table_pagination_behavior.1 (Table.mk ["a"] []) 0 10 rfl⟩

/-! C6: URL-column detection -/

theorem isUrlString_eq_true_iff (j : Json) :
    isUrlString j = true
      ↔ ∃ s, j = Json.str s
          ∧ (s.startsWith ("http://") = true ∨ s.startsWith ("https://") = true) := by
  cases j <;> simp [isUrlString]

/-- C6: a column is flagged as a URL column exactly when it exists, its
values are string-typed (pandas `object` dtype), and at least one of the
first up-to-ten non-missing values is a string starting with "http://" or
"https://". -/
theorem url_column_flag_iff (t : Table) (c : String) :
    c ∈ detect_url_columns t
      ↔ c ∈ t.cols
        ∧ isObjectDtype (getColumn t c) = true
        ∧ ∃ j ∈ sampleValues (getColumn t c),
            ∃ s, j = Json.str s
              ∧ (s.startsWith ("http://") = true ∨ s.startsWith ("https://") = true) := by
  unfold detect_url_columns
  rw [List.mem_filter]
  constructor
  · rintro ⟨hc, hp⟩
    rw [Bool.and_eq_true] at hp
    obtain ⟨h1, h2⟩ := hp
    rw [List.any_eq_true] at h2
    obtain ⟨j, hj, hurl⟩ := h2
    exact ⟨hc, h1, j, hj, (isUrlString_eq_true_iff j).1 hurl⟩
  · rintro ⟨hc, h1, j, hj, hs⟩
    refine ⟨hc, ?_⟩
    rw [Bool.and_eq_true]
    exact ⟨h1, List.any_eq_true.2 ⟨j, hj, (isUrlString_eq_true_iff j).2 hs⟩⟩

/-! C8: filter options -/

theorem uniqAux_congr (l : List String) :
    ∀ s1 s2 : List String, (∀ a, a ∈ s1 ↔ a ∈ s2) →
      uniqAux s1 l = uniqAux s2 l := by
  induction l with
  | nil => intro s1 s2 _; rfl
  | cons x xs ih =>
    intro s1 s2 h
    simp only [uniqAux]
    by_cases hx : x ∈ s1
    · rw [if_pos hx, if_pos ((h x).1 hx), ih s1 s2 h]
    · rw [if_neg hx, if_neg (fun hx2 => hx ((h x).2 hx2)),
        ih (x :: s1) (x :: s2) fun a => by simp [List.mem_cons, h a]]

theorem foldl_firstSeen_eq_uniqAux (l : List String) :
    ∀ acc : List String,
      l.foldl (fun a x => if x ∈ a then a else a ++ [x]) acc
        = acc ++ uniqAux acc l := by
  induction l with
  | nil => intro acc; simp [uniqAux]
  | cons x xs ih =>
    intro acc
    simp only [List.foldl_cons, uniqAux]
    by_cases hx : x ∈ acc
    · rw [if_pos hx, if_pos hx, ih acc]
    · rw [if_neg hx, if_neg hx, ih (acc ++ [x]),
        uniqAux_congr xs (acc ++ [x]) (x :: acc)
          fun a => by simp [List.mem_append, List.mem_cons, or_comm]]
      simp

theorem uniqAux_mem (l : List String) :
    ∀ (seen : List String) (a : String),
      a ∈ uniqAux seen l ↔ a ∈ l ∧ a ∉ seen := by
  induction l with
  | nil => intro seen a; simp [uniqAux]
  | cons x xs ih =>
    intro seen a
    simp only [uniqAux]
    by_cases hx : x ∈ seen
    · rw [if_pos hx, ih]
      constructor
      · rintro ⟨ha, hs⟩
        exact ⟨List.mem_cons_of_mem x ha, hs⟩
      · rintro ⟨ha, hs⟩
        rcases List.mem_cons.1 ha with rfl | ha
        · exact absurd hx hs
        · exact ⟨ha, hs⟩
    · rw [if_neg hx]
      simp only [List.mem_cons, ih]
      constructor
      · rintro (rfl | ⟨ha, hs⟩)
        · exact ⟨Or.inl rfl, hx⟩
        · exact ⟨Or.inr ha, fun h => hs (Or.inr h)⟩
      · rintro ⟨rfl | ha, hs⟩
        · exact Or.inl rfl
        · by_cases hax : a = x
          · exact Or.inl hax
          · exact Or.inr ⟨ha, fun h => h.elim hax hs⟩

theorem uniqAux_nodup (l : List String) :
    ∀ seen : List String, (uniqAux seen l).Nodup := by
  induction l with
  | nil => intro seen; exact List.nodup_nil
  | cons x xs ih =>
    intro seen
    simp only [uniqAux]
    split
    · exact ih seen
    · refine List.nodup_cons.2 ⟨?_, ih (x :: seen)⟩
      intro hx
      exact ((uniqAux_mem xs (x :: seen) x).1 hx).2 (List.mem_cons_self x seen)

theorem specFirstSeen_eq_pandasUnique (l : List String) :
    specFirstSeen l = pandasUnique l := by
  unfold specFirstSeen pandasUnique
  simpa using foldl_firstSeen_eq_uniqAux l []

/-- C8: for a filter column present in the table, the offered options are
exactly the distinct textual values of the original pre-filter column in
first-seen order, with the unconstrained "All" choice prepended; the listed
values are distinct and are precisely the textual values observed. -/
theorem filter_options_spec (t : Table) (c : String) (_h : c ∈ t.cols) :
    filter_options t c
      = "All" :: specFirstSeen ((getColumn t c).map cellToStrP)
    ∧ (specFirstSeen ((getColumn t c).map cellToStrP)).Nodup
    ∧ ∀ s, s ∈ specFirstSeen ((getColumn t c).map cellToStrP)
        ↔ s ∈ (getColumn t c).map cellToStrP := by
  refine ⟨?_, ?_, ?_⟩
  · rw [filter_options, specFirstSeen_eq_pandasUnique]
  · rw [specFirstSeen_eq_pandasUnique]
    exact uniqAux_nodup _ []
  · intro s
    rw [specFirstSeen_eq_pandasUnique, pandasUnique, uniqAux_mem]
    simp

theorem filter_options_spec_witness :
    "publisher" ∈ exTable.cols
    ∧ filter_options exTable ("publisher")
        = "All" :: specFirstSeen ((getColumn exTable ("publisher")).map cellToStrP) := by
  have h : "publisher" ∈ exTable.cols := by
    simp [exTable]
  exact ⟨h, (filter_options_spec exTable ("publisher") h).1⟩

/-! C7: CSV export determinism and round trip -/

end DataWave
